import Mathlib

/-
Verification of the posture-signal pipeline of SitSmartCoach.py.

The pipeline is embedded shallowly: the numeric helpers (`calculate_angle`,
`estimate_distance_cm`, `center_gaze_label`) become functions over ℝ, where
`np.arctan2 y x` is modelled by `Complex.arg ⟨x, y⟩` (the two agree on all of
ℝ², including `arctan2 0 0 = 0`), and the stateful per-frame body of
`PostureWorker.run` (lines 171-230 of SitSmartCoach.py) becomes an explicit
state-passing step function `processFrame` on a record of the three smoothing
buffers `angles`, `dists`, `gazes`.  Status strings are modelled by the
inductive type `Msg`, one constructor per f-string template of the source,
carrying the integer shown in the text; Python `int()` truncation toward zero
is modelled by `pyInt`.
-/

namespace SitSmartCoach

/-- Config constant ELBOW_MIN (degrees) from SitSmartCoach.py line 46. -/
def ELBOW_MIN : ℝ := 50

/-- Config constant ELBOW_MAX (degrees) from SitSmartCoach.py line 46. -/
def ELBOW_MAX : ℝ := 180

/-- Config constant DIST_MIN_CM from SitSmartCoach.py line 47. -/
def DIST_MIN_CM : ℝ := 70

/-- Config constant DIST_MAX_CM from SitSmartCoach.py line 47. -/
def DIST_MAX_CM : ℝ := 100

/-- Config constant AVG_SHOULDER_WIDTH_CM from SitSmartCoach.py line 48. -/
def AVG_SHOULDER_WIDTH_CM : ℝ := 30

/-- Config constant FOCAL_LENGTH_PX from SitSmartCoach.py line 49. -/
def FOCAL_LENGTH_PX : ℝ := 650

/-- Smoothing window capacity SMOOTH_N from SitSmartCoach.py line 52. -/
def SMOOTH_N : ℕ := 7

/-- Model of `np.arctan2 y x`: the argument of the complex number x + y·i,
which lies in (-π, π] and is 0 at the origin, exactly as numpy's arctan2. -/
noncomputable def atan2 (y x : ℝ) : ℝ := Complex.arg ⟨x, y⟩

/-- Model of `np.degrees`: radians to degrees. -/
noncomputable def np_degrees (r : ℝ) : ℝ := r * (180 / Real.pi)

/-- Model of `calculate_angle` (SitSmartCoach.py lines 59-66): the angle ABC in
degrees from the atan2 difference of the vectors B→C and B→A, absolute value
taken, reflected to 360 - angle when above 180. -/
noncomputable def calculate_angle (a b c : ℝ × ℝ) : ℝ :=
  let ang := np_degrees (atan2 (c.2 - b.2) (c.1 - b.1) - atan2 (a.2 - b.2) (a.1 - b.1))
  let ang2 := |ang|
  if ang2 > 180 then 360 - ang2 else ang2

/-- The pinhole relation applied to an already-computed shoulder pixel gap:
the body of `estimate_distance_cm` after `dpx` is obtained (SitSmartCoach.py
lines 72-76): sentinel 0 for a gap at most 1e-6, else 650 · 30 / gap. -/
noncomputable def estimate_distance_from_gap (dpx : ℝ) : ℝ :=
  if dpx ≤ 1e-6 then 0 else FOCAL_LENGTH_PX * AVG_SHOULDER_WIDTH_CM / dpx

/-- Model of `estimate_distance_cm` (SitSmartCoach.py lines 68-78): Euclidean
pixel distance between the two shoulder pixel positions fed to the pinhole
relation.  (The `except` branch of the source is unreachable in the real-number
model: none of the arithmetic raises.) -/
noncomputable def estimate_distance_cm (l r : ℝ × ℝ) : ℝ :=
  estimate_distance_from_gap (Real.sqrt ((l.1 - r.1) ^ 2 + (l.2 - r.2) ^ 2))

/-- The three gaze label strings returned by `center_gaze_label`. -/
inductive Gaze where
  | left
  | right
  | center
deriving DecidableEq

/-- Model of `center_gaze_label` (SitSmartCoach.py lines 80-90): nose x minus
shoulder-center x, classified with a ±0.03 deadband. -/
noncomputable def center_gaze_label (nose_x left_sh_x right_sh_x : ℝ) : Gaze :=
  let cx := (left_sh_x + right_sh_x) / 2
  let diff := nose_x - cx
  if diff < -0.03 then Gaze.left
  else if diff > 0.03 then Gaze.right
  else Gaze.center

/-- Model of Python `int()` on a float: truncation toward zero. -/
noncomputable def pyInt (x : ℝ) : ℤ := if 0 ≤ x then ⌊x⌋ else ⌈x⌉

/-- One status line, one constructor per f-string template of
`PostureWorker.run`, carrying the truncated integer shown in the text. -/
inductive Msg where
  | elbowOK (deg : ℤ)
  | adjustElbow (deg : ℤ)
  | recenterDistance
  | distanceOK (cm : ℤ)
  | tooClose (cm : ℤ)
  | tooFar (cm : ℤ)
  | looking (g : Gaze)
  | moveIntoFrame
deriving DecidableEq

/-- The append-then-pop-front idiom applied to each smoothing buffer
(SitSmartCoach.py lines 184-186, 205-207, 222-224): append the new sample,
and if the length now exceeds SMOOTH_N, pop the front (oldest) element. -/
def pushWindow {α : Type} (w : List α) (x : α) : List α :=
  let w2 := w ++ [x]
  if SMOOTH_N < w2.length then w2.drop 1 else w2

/-- Model of `np.median`: sort ascending; middle element for odd length,
mean of the two middle elements for even length.  The source never calls it
on an empty buffer (a sample is always appended first), so the default 0 of
`getD` is unreachable there. -/
noncomputable def median (xs : List ℝ) : ℝ :=
  let s := List.insertionSort (fun a b => a ≤ b) xs
  let n := xs.length
  if n % 2 = 1 then s.getD (n / 2) 0
  else (s.getD (n / 2 - 1) 0 + s.getD (n / 2) 0) / 2

/-- Model of the majority vote `max(set(self.gazes), key=self.gazes.count)`
(SitSmartCoach.py line 226): among the distinct labels of the buffer, keep the
first whose occurrence count is not beaten strictly by a later one.  (CPython
iterates the set in an unspecified order; `dedup` fixes one concrete order.
`vote` is only applied to nonempty buffers, so the `[]` case is unreachable.) -/
def vote (xs : List Gaze) : Gaze :=
  match xs.dedup with
  | [] => Gaze.center
  | h :: t => t.foldl (fun best g => if xs.count best < xs.count g then g else best) h

/-- The landmark coordinates (normalized to [0,1]) that one successful frame
of `PostureWorker.run` reads from the pose result. -/
structure Landmarks where
  leftShoulder : ℝ × ℝ
  leftElbow : ℝ × ℝ
  leftWrist : ℝ × ℝ
  rightShoulder : ℝ × ℝ
  nose : ℝ × ℝ

/-- The mutable smoothing buffers of a `PostureWorker`
(SitSmartCoach.py lines 135-137). -/
structure WorkerState where
  angles : List ℝ
  dists : List ℝ
  gazes : List Gaze

/-- The buffers as initialized in `PostureWorker.__init__`: all empty. -/
def initialState : WorkerState := ⟨[], [], []⟩

/-- The distance branch of the frame body (SitSmartCoach.py lines 201-215):
a non-positive raw estimate yields the re-center line and leaves the buffer
untouched; otherwise the sample is pushed, the median taken, and classified
against [DIST_MIN_CM, DIST_MAX_CM].  (`math.isinf`/`math.isnan` cannot hold
of a real number, so only the `z_cm ≤ 0` disjunct of line 201 remains.) -/
noncomputable def distStep (dists : List ℝ) (z_cm : ℝ) : List ℝ × Msg :=
  if z_cm ≤ 0 then (dists, Msg.recenterDistance)
  else
    let dists2 := pushWindow dists z_cm
    let z_sm := median dists2
    if DIST_MIN_CM ≤ z_sm ∧ z_sm ≤ DIST_MAX_CM then (dists2, Msg.distanceOK (pyInt z_sm))
    else if z_sm < DIST_MIN_CM then (dists2, Msg.tooClose (pyInt z_sm))
    else (dists2, Msg.tooFar (pyInt z_sm))

/-- One iteration of the body of the `while` loop of `PostureWorker.run`
(SitSmartCoach.py lines 171-230) after a frame was read, parametrized by the
frame's pixel width `iw` and height `ih` and the pose-detection outcome:
`none` when `res.pose_landmarks` is `None` (the attribute access on line 173
raises before any buffer is touched, so the handler on line 230 replaces the
status with the single move-into-frame line), `some lm` otherwise.  Returns
the updated buffers and the status lines pushed to the UI queue. -/
noncomputable def processFrame (st : WorkerState) (iw ih : ℝ)
    (det : Option Landmarks) : WorkerState × List Msg :=
  match det with
  | none => (st, [Msg.moveIntoFrame])
  | some lm =>
    let ang := calculate_angle lm.leftShoulder lm.leftElbow lm.leftWrist
    let angles := pushWindow st.angles ang
    let ang_sm := median angles
    let m1 := if ELBOW_MIN ≤ ang_sm ∧ ang_sm ≤ ELBOW_MAX then Msg.elbowOK (pyInt ang_sm)
              else Msg.adjustElbow (pyInt ang_sm)
    let lsh_px := (lm.leftShoulder.1 * iw, lm.leftShoulder.2 * ih)
    let rsh_px := (lm.rightShoulder.1 * iw, lm.rightShoulder.2 * ih)
    let z_cm := estimate_distance_cm lsh_px rsh_px
    let dres := distStep st.dists z_cm
    let gaze := center_gaze_label lm.nose.1 lm.leftShoulder.1 lm.rightShoulder.1
    let gazes := pushWindow st.gazes gaze
    let gaze_final := vote gazes
    (⟨angles, dres.1, gazes⟩, [m1, dres.2, Msg.looking gaze_final])

/-- One sampled camera frame as seen by the loop body: pixel dimensions and
the pose-detection outcome. -/
structure FrameInput where
  iw : ℝ
  ih : ℝ
  det : Option Landmarks

/-- The smoothing buffers after `PostureWorker.run` has processed a whole
sequence of frames, in order, starting from `st`. -/
noncomputable def runState (st : WorkerState) : List FrameInput → WorkerState
  | [] => st
  | f :: rest => runState (processFrame st f.iw f.ih f.det).1 rest

/-- The arctan2 model inherits the upper bound π of `Complex.arg`. -/
lemma atan2_le_pi (y x : ℝ) : atan2 y x ≤ Real.pi := Complex.arg_le_pi _

/-- The arctan2 model inherits the strict lower bound -π of `Complex.arg`. -/
lemma neg_pi_lt_atan2 (y x : ℝ) : -Real.pi < atan2 y x := Complex.neg_pi_lt_arg _

/-- Shared range bound: the angle returned by `calculate_angle` always lies
in [0, 180]. -/
lemma calculate_angle_bounds (a b c : ℝ × ℝ) :
    0 ≤ calculate_angle a b c ∧ calculate_angle a b c ≤ 180 := by
  unfold calculate_angle np_degrees
  have hpi := Real.pi_pos
  have h1 := atan2_le_pi (c.2 - b.2) (c.1 - b.1)
  have h2 := neg_pi_lt_atan2 (c.2 - b.2) (c.1 - b.1)
  have h3 := atan2_le_pi (a.2 - b.2) (a.1 - b.1)
  have h4 := neg_pi_lt_atan2 (a.2 - b.2) (a.1 - b.1)
  set t1 := atan2 (c.2 - b.2) (c.1 - b.1) with ht1
  set t2 := atan2 (a.2 - b.2) (a.1 - b.1) with ht2
  have hfac : (0:ℝ) < 180 / Real.pi := by positivity
  have habs : |(t1 - t2) * (180 / Real.pi)| < 360 := by
    rw [abs_mul, abs_of_pos hfac]
    have hd : |t1 - t2| < 2 * Real.pi := by
      rw [abs_sub_lt_iff]
      constructor <;> linarith
    have := mul_lt_mul_of_pos_right hd hfac
    have heq : 2 * Real.pi * (180 / Real.pi) = 360 := by
      field_simp
      ring
    linarith
  have hnn : (0:ℝ) ≤ |(t1 - t2) * (180 / Real.pi)| := abs_nonneg _
  simp only [gt_iff_lt]
  split_ifs with h
  · constructor <;> linarith
  · constructor <;> linarith [not_lt.mp h]

/-- C1: for every triple of 2D points a, b, c (real coordinates, hence
finite), `calculate_angle a b c` lies in the closed interval [0, 180]:
the absolute atan2 difference in degrees, reflected to 360 minus the angle
when it exceeds 180. -/
theorem calculate_angle_in_range (a b c : ℝ × ℝ) :
    0 ≤ calculate_angle a b c ∧ calculate_angle a b c ≤ 180 :=
  calculate_angle_bounds a b c

/-- Pushing a sample never grows a window beyond SMOOTH_N elements. -/
lemma pushWindow_length_le {α : Type} (w : List α) (x : α) (h : w.length ≤ SMOOTH_N) :
    (pushWindow w x).length ≤ SMOOTH_N := by
  simp only [pushWindow]
  split_ifs with h2
  · simp only [List.length_drop, List.length_append, List.length_singleton]
    omega
  · simp only [List.length_append, List.length_singleton] at h2 ⊢
    omega

/-- The distance branch never grows the distance buffer beyond SMOOTH_N. -/
lemma distStep_length_le (d : List ℝ) (z : ℝ) (h : d.length ≤ SMOOTH_N) :
    (distStep d z).1.length ≤ SMOOTH_N := by
  simp only [distStep]
  split_ifs <;> first | exact h | exact pushWindow_length_le d z h

/-- One frame preserves the capacity bound on all three buffers. -/
lemma processFrame_lengths_le (st : WorkerState) (iw ih : ℝ) (det : Option Landmarks)
    (h : st.angles.length ≤ SMOOTH_N ∧ st.dists.length ≤ SMOOTH_N ∧
         st.gazes.length ≤ SMOOTH_N) :
    ((processFrame st iw ih det).1.angles.length ≤ SMOOTH_N ∧
     (processFrame st iw ih det).1.dists.length ≤ SMOOTH_N ∧
     (processFrame st iw ih det).1.gazes.length ≤ SMOOTH_N) := by
  obtain ⟨ha, hd, hg⟩ := h
  cases det with
  | none => exact ⟨ha, hd, hg⟩
  | some lm =>
    refine ⟨pushWindow_length_le _ _ ha, distStep_length_le _ _ hd,
      pushWindow_length_le _ _ hg⟩

/-- Any run starting from capacity-respecting buffers keeps them within
capacity. -/
lemma runState_lengths_le (frames : List FrameInput) (st : WorkerState)
    (h : st.angles.length ≤ SMOOTH_N ∧ st.dists.length ≤ SMOOTH_N ∧
         st.gazes.length ≤ SMOOTH_N) :
    ((runState st frames).angles.length ≤ SMOOTH_N ∧
     (runState st frames).dists.length ≤ SMOOTH_N ∧
     (runState st frames).gazes.length ≤ SMOOTH_N) := by
  induction frames generalizing st with
  | nil => exact h
  | cons f rest ih2 =>
    exact ih2 _ (processFrame_lengths_le st f.iw f.ih f.det h)

/-- C2: after any sequence of processed frames, each of the three smoothing
buffers holds at most SMOOTH_N = 7 elements, and an insertion into a full
window evicts exactly the oldest element (strict FIFO): the new window is the
tail of the old one with the new sample appended. -/
theorem windows_bounded_and_fifo :
    (∀ frames : List FrameInput,
       ((runState initialState frames).angles.length ≤ SMOOTH_N ∧
        (runState initialState frames).dists.length ≤ SMOOTH_N ∧
        (runState initialState frames).gazes.length ≤ SMOOTH_N)) ∧
    (∀ (w : List ℝ) (x : ℝ), w.length = SMOOTH_N →
       pushWindow w x = w.tail ++ [x]) := by
  constructor
  · intro frames
    exact runState_lengths_le frames initialState (by simp [initialState])
  · intro w x hw
    simp only [pushWindow]
    rw [if_pos (by simp [hw])]
    rw [List.drop_append_of_le_length (by simp [hw, SMOOTH_N]), List.drop_one]

/-- Witness for C2 at a concrete full window: pushing 7 into
[0,1,2,3,4,5,6] evicts the oldest element 0. -/
theorem windows_bounded_and_fifo_witness :
    ([0, 1, 2, 3, 4, 5, 6] : List ℝ).length = SMOOTH_N ∧
    pushWindow ([0, 1, 2, 3, 4, 5, 6] : List ℝ) 7 = [1, 2, 3, 4, 5, 6, 7] := by
  refine ⟨by simp [SMOOTH_N], ?_⟩
  rw [windows_bounded_and_fifo.2 [0, 1, 2, 3, 4, 5, 6] 7 (by simp [SMOOTH_N])]
  simp

/-- C3: a frame with no detected body produces exactly the single
move-into-frame status line and leaves all three smoothing buffers
untouched. -/
theorem noDetection_single_fallback (st : WorkerState) (iw ih : ℝ) :
    processFrame st iw ih none = (st, [Msg.moveIntoFrame]) := rfl

/-- C4: the gap-to-distance map returns the sentinel 0 for any gap at most
1e-6, and is strictly decreasing above 1e-6: a larger pixel gap yields a
strictly smaller estimated distance. -/
theorem estimate_distance_sentinel_and_antitone :
    (∀ g : ℝ, g ≤ 1e-6 → estimate_distance_from_gap g = 0) ∧
    (∀ g1 g2 : ℝ, 1e-6 < g1 → g1 < g2 →
       estimate_distance_from_gap g2 < estimate_distance_from_gap g1) := by
  constructor
  · intro g hg
    unfold estimate_distance_from_gap
    rw [if_pos hg]
  · intro g1 g2 h1 h12
    have hg1 : (0:ℝ) < g1 := lt_trans (by norm_num) h1
    have hg2 : (0:ℝ) < g2 := lt_trans hg1 h12
    unfold estimate_distance_from_gap
    rw [if_neg (by linarith), if_neg (by linarith)]
    have hnum : (0:ℝ) < FOCAL_LENGTH_PX * AVG_SHOULDER_WIDTH_CM := by
      unfold FOCAL_LENGTH_PX AVG_SHOULDER_WIDTH_CM
      norm_num
    exact div_lt_div_of_pos_left hnum hg1 h12

/-- Witness for C4 at concrete gaps: gap 0 gives the sentinel, and the
estimate at gap 390 is strictly below the estimate at gap 195. -/
theorem estimate_distance_sentinel_and_antitone_witness :
    estimate_distance_from_gap 0 = 0 ∧
    estimate_distance_from_gap 390 < estimate_distance_from_gap 195 :=
  ⟨estimate_distance_sentinel_and_antitone.1 0 (by norm_num),
   estimate_distance_sentinel_and_antitone.2 195 390 (by norm_num) (by norm_num)⟩

/-- C5: the gaze classifier uses the ±0.03 deadband on the difference between
the nose x and the shoulder midpoint x: below -0.03 it reports left, above
0.03 it reports right, anywhere in [-0.03, 0.03] (boundaries and 0 included)
it reports center; in particular a nose exactly at the midpoint or offset by
±0.01 gives center, and offsets of -0.05 / +0.05 give left / right. -/
theorem gaze_deadband (n l r : ℝ) :
    (n - (l + r) / 2 < -0.03 → center_gaze_label n l r = Gaze.left) ∧
    (0.03 < n - (l + r) / 2 → center_gaze_label n l r = Gaze.right) ∧
    (-0.03 ≤ n - (l + r) / 2 → n - (l + r) / 2 ≤ 0.03 →
       center_gaze_label n l r = Gaze.center) ∧
    center_gaze_label ((l + r) / 2) l r = Gaze.center ∧
    center_gaze_label ((l + r) / 2 - 0.01) l r = Gaze.center ∧
    center_gaze_label ((l + r) / 2 + 0.01) l r = Gaze.center ∧
    center_gaze_label ((l + r) / 2 - 0.05) l r = Gaze.left ∧
    center_gaze_label ((l + r) / 2 + 0.05) l r = Gaze.right := by
  have hleft : ∀ m : ℝ, m - (l + r) / 2 < -0.03 → center_gaze_label m l r = Gaze.left := by
    intro m hm
    simp only [center_gaze_label]
    rw [if_pos hm]
  have hright : ∀ m : ℝ, 0.03 < m - (l + r) / 2 → center_gaze_label m l r = Gaze.right := by
    intro m hm
    simp only [center_gaze_label]
    rw [if_neg (by linarith), if_pos hm]
  have hcenter : ∀ m : ℝ, -0.03 ≤ m - (l + r) / 2 → m - (l + r) / 2 ≤ 0.03 →
      center_gaze_label m l r = Gaze.center := by
    intro m h1 h2
    simp only [center_gaze_label]
    rw [if_neg (by linarith), if_neg (not_lt.mpr h2)]
  refine ⟨hleft n, hright n, hcenter n, ?_, ?_, ?_, ?_, ?_⟩
  · exact hcenter _ (by linarith) (by linarith)
  · exact hcenter _ (by linarith) (by linarith)
  · exact hcenter _ (by linarith) (by linarith)
  · exact hleft _ (by linarith)
  · exact hright _ (by linarith)

/-- Witness for C5 at concrete coordinates with shoulder midpoint 0.5: nose at
0.4 reports left, at 0.6 reports right, at 0.51 (inside the deadband) center. -/
theorem gaze_deadband_witness :
    center_gaze_label 0.4 0.4 0.6 = Gaze.left ∧
    center_gaze_label 0.6 0.4 0.6 = Gaze.right ∧
    center_gaze_label 0.51 0.4 0.6 = Gaze.center :=
  ⟨(gaze_deadband 0.4 0.4 0.6).1 (by norm_num),
   (gaze_deadband 0.6 0.4 0.6).2.1 (by norm_num),
   (gaze_deadband 0.51 0.4 0.6).2.2.1 (by norm_num) (by norm_num)⟩

/-- The model arctan2 on the positive x-axis (and at the origin) is 0,
matching numpy. -/
lemma atan2_nonneg_x (x : ℝ) (hx : 0 ≤ x) : atan2 0 x = 0 := by
  unfold atan2
  exact Complex.arg_ofReal_of_nonneg hx

/-- The model arctan2 straight up the positive y-axis is π/2. -/
lemma atan2_pos_y (y : ℝ) (hy : 0 < y) : atan2 y 0 = Real.pi / 2 := by
  unfold atan2
  have h : (⟨0, y⟩ : ℂ) = (y : ℝ) * Complex.I := by
    apply Complex.ext <;> simp
  rw [h, Complex.arg_real_mul _ hy, Complex.arg_I]

/-- The model arctan2 straight down the negative y-axis is -π/2. -/
lemma atan2_neg_y (y : ℝ) (hy : 0 < y) : atan2 (-y) 0 = -(Real.pi / 2) := by
  unfold atan2
  have h : (⟨0, -y⟩ : ℂ) = (y : ℝ) * -Complex.I := by
    apply Complex.ext <;> simp
  rw [h, Complex.arg_real_mul _ hy, Complex.arg_neg_I]

/-- Degrees of a quarter turn: (π/2) · (180/π) = 90. -/
lemma quarter_turn_degrees : Real.pi / 2 * (180 / Real.pi) = 90 := by
  have hpi := Real.pi_ne_zero
  field_simp
  ring

/-- With A and B both at the origin and C straight below on the y-axis, the
angle computed by `calculate_angle` is exactly 90 degrees. -/
lemma calculate_angle_degenerate_eq :
    calculate_angle ((0:ℝ), (0:ℝ)) (0, 0) (0, 1) = 90 := by
  simp only [calculate_angle, np_degrees]
  norm_num
  rw [atan2_pos_y 1 one_pos, atan2_nonneg_x 0 le_rfl, sub_zero, quarter_turn_degrees]
  rw [abs_of_nonneg (by norm_num : (0:ℝ) ≤ 90)]
  rw [if_neg (by norm_num)]

/-- Counterexample to C7 as stated: at the degenerate input A = B = (0,0),
C = (0,1), the code returns 90 degrees, which is neither 0 nor 180, and no
undefined marker exists (the function always returns a real number). -/
theorem degenerate_not_collapsed :
    calculate_angle ((0:ℝ), (0:ℝ)) (0, 0) (0, 1) = 90 ∧
    calculate_angle ((0:ℝ), (0:ℝ)) (0, 0) (0, 1) ≠ 0 ∧
    calculate_angle ((0:ℝ), (0:ℝ)) (0, 0) (0, 1) ≠ 180 := by
  refine ⟨calculate_angle_degenerate_eq, ?_, ?_⟩ <;>
    rw [calculate_angle_degenerate_eq] <;> norm_num

/-- C7 amended: for degenerate inputs with A = B or B = C, `calculate_angle`
is total (never raises) and returns a value in [0, 180]; the value is not
restricted to 0 or 180 and no undefined marker is produced. -/
theorem degenerate_total_in_range (a b c : ℝ × ℝ) (h : a = b ∨ b = c) :
    0 ≤ calculate_angle a b c ∧ calculate_angle a b c ≤ 180 :=
  calculate_angle_bounds a b c

/-- Witness for the amended C7 at the concrete degenerate input A = B = (0,0),
C = (0,1). -/
theorem degenerate_total_in_range_witness :
    ((0:ℝ), (0:ℝ)) = ((0:ℝ), (0:ℝ)) ∧
    (0 ≤ calculate_angle ((0:ℝ), (0:ℝ)) (0, 0) (0, 1) ∧
     calculate_angle ((0:ℝ), (0:ℝ)) (0, 0) (0, 1) ≤ 180) :=
  ⟨rfl, degenerate_total_in_range (0, 0) (0, 0) (0, 1) (Or.inl rfl)⟩

/-- The fold inside `vote` returns a candidate whose occurrence count in `xs`
is at least that of the initial candidate and of every candidate in the
fold list. -/
lemma foldl_vote_count (xs l : List Gaze) (b : Gaze) :
    xs.count b ≤
      xs.count (l.foldl (fun best g => if xs.count best < xs.count g then g else best) b) ∧
    ∀ g ∈ l,
      xs.count g ≤
        xs.count (l.foldl (fun best g => if xs.count best < xs.count g then g else best) b) := by
  induction l generalizing b with
  | nil => exact ⟨le_rfl, by simp⟩
  | cons h t ih =>
    simp only [List.foldl_cons]
    have hbb : xs.count b ≤ xs.count (if xs.count b < xs.count h then h else b) ∧
        xs.count h ≤ xs.count (if xs.count b < xs.count h then h else b) := by
      split_ifs with hlt
      · exact ⟨le_of_lt hlt, le_rfl⟩
      · exact ⟨le_rfl, not_lt.mp hlt⟩
    obtain ⟨ih1, ih2⟩ := ih (if xs.count b < xs.count h then h else b)
    refine ⟨le_trans hbb.1 ih1, ?_⟩
    intro g hg
    rcases List.mem_cons.mp hg with rfl | hg
    · exact le_trans hbb.2 ih1
    · exact ih2 g hg

/-- C8: on any nonempty gaze window, the vote returns a label whose
occurrence count in the window is maximal; on the concrete window
[left, left, center, left, right, left, center] it returns left. -/
theorem vote_maximal_and_example :
    (∀ xs : List Gaze, xs ≠ [] → ∀ g ∈ xs, xs.count g ≤ xs.count (vote xs)) ∧
    vote [Gaze.left, Gaze.left, Gaze.center, Gaze.left, Gaze.right, Gaze.left,
      Gaze.center] = Gaze.left := by
  constructor
  · intro xs hxs g hg
    have hd : g ∈ xs.dedup := List.mem_dedup.mpr hg
    simp only [vote]
    cases hdd : xs.dedup with
    | nil =>
      rw [hdd] at hd
      simp at hd
    | cons h t =>
      rw [hdd] at hd
      simp only
      rcases List.mem_cons.mp hd with rfl | hd2
      · exact (foldl_vote_count xs t g).1
      · exact (foldl_vote_count xs t h).2 g hd2
  · decide

/-- Witness for C8: on the concrete window of C8 the count of the label
right never exceeds the count of the voted label. -/
theorem vote_maximal_and_example_witness :
    [Gaze.left, Gaze.left, Gaze.center, Gaze.left, Gaze.right, Gaze.left,
        Gaze.center].count Gaze.right ≤
      [Gaze.left, Gaze.left, Gaze.center, Gaze.left, Gaze.right, Gaze.left,
        Gaze.center].count
        (vote [Gaze.left, Gaze.left, Gaze.center, Gaze.left, Gaze.right, Gaze.left,
          Gaze.center]) :=
  vote_maximal_and_example.1 _ (by decide) Gaze.right (by decide)

/-- Sorting a constant list returns it unchanged. -/
lemma insertionSort_replicate (n : ℕ) (a : ℝ) :
    List.insertionSort (fun a b => a ≤ b) (List.replicate n a) = List.replicate n a := by
  induction n with
  | zero => rfl
  | succ k ih =>
    rw [List.replicate_succ, List.insertionSort, ih]
    cases k with
    | zero => rfl
    | succ m =>
      rw [List.replicate_succ, List.orderedInsert_of_le _ _ le_rfl, ← List.replicate_succ,
        ← List.replicate_succ]

/-- Reading inside a constant list always gives the constant. -/
lemma getD_replicate (n i : ℕ) (a : ℝ) (h : i < n) :
    (List.replicate n a).getD i 0 = a := by
  induction n generalizing i with
  | zero => omega
  | succ k ih =>
    rw [List.replicate_succ]
    cases i with
    | zero => rfl
    | succ j => exact ih j (by omega)

/-- The median of a nonempty constant window is the constant, for both the
odd and the even length case of the `np.median` model. -/
lemma median_replicate (n : ℕ) (hn : n ≠ 0) (a : ℝ) :
    median (List.replicate n a) = a := by
  simp only [median, insertionSort_replicate, List.length_replicate]
  split_ifs with hpar
  · exact getD_replicate _ _ _ (by omega)
  · rw [getD_replicate _ _ _ (by omega), getD_replicate _ _ _ (by omega)]
    ring

/-- Pushing the constant into a constant window of length at most SMOOTH_N
yields the constant window of the capped successor length. -/
lemma pushWindow_replicate {α : Type} (k : ℕ) (a : α) (hk : k ≤ SMOOTH_N) :
    pushWindow (List.replicate k a) a = List.replicate (min (k + 1) SMOOTH_N) a := by
  simp only [pushWindow, List.length_append, List.length_replicate, List.length_singleton]
  split_ifs with h
  · have hk7 : k = SMOOTH_N := by omega
    subst hk7
    rw [min_eq_right (by omega), ← List.replicate_succ', List.replicate_succ]
    simp
  · rw [min_eq_left (by omega), ← List.replicate_succ']

/-- Deduplicating a nonempty constant list leaves a single label. -/
lemma dedup_replicate (k : ℕ) (g : Gaze) : (List.replicate (k + 1) g).dedup = [g] := by
  induction k with
  | zero => rfl
  | succ m ih =>
    rw [List.replicate_succ, List.dedup_cons_of_mem (by simp), ih]

/-- The vote on a nonempty constant window is the constant label. -/
lemma vote_replicate (k : ℕ) (g : Gaze) : vote (List.replicate (k + 1) g) = g := by
  simp [vote, dedup_replicate]

/-- Membership after a push comes from the old window or is the new sample. -/
lemma mem_pushWindow {α : Type} {w : List α} {x y : α} (h : y ∈ pushWindow w x) :
    y ∈ w ∨ y = x := by
  simp only [pushWindow] at h
  split_ifs at h with h2
  · rcases List.mem_append.mp (List.drop_subset 1 (w ++ [x]) h) with h3 | h3
    · exact Or.inl h3
    · exact Or.inr (by simpa using h3)
  · rcases List.mem_append.mp h with h3 | h3
    · exact Or.inl h3
    · exact Or.inr (by simpa using h3)

/-- The distance branch preserves positivity of the buffer: a sample is
appended only after the `z_cm ≤ 0` guard rejected the non-positive case. -/
lemma distStep_pos (d : List ℝ) (z : ℝ) (hd : ∀ x ∈ d, 0 < x) :
    ∀ x ∈ (distStep d z).1, 0 < x := by
  simp only [distStep]
  split_ifs with h1 h2 h3 <;> intro x hx
  · exact hd x hx
  all_goals
    rcases mem_pushWindow hx with h | rfl
    · exact hd x h
    · exact lt_of_not_le h1

/-- One frame preserves positivity of the distance buffer. -/
lemma processFrame_pos (st : WorkerState) (iw ih : ℝ) (det : Option Landmarks)
    (h : ∀ x ∈ st.dists, 0 < x) :
    ∀ x ∈ (processFrame st iw ih det).1.dists, 0 < x := by
  cases det with
  | none => exact h
  | some lm => exact distStep_pos _ _ h

/-- Any run from a positive distance buffer keeps it positive. -/
lemma runState_pos (frames : List FrameInput) (st : WorkerState)
    (h : ∀ x ∈ st.dists, 0 < x) :
    ∀ x ∈ (runState st frames).dists, 0 < x := by
  induction frames generalizing st with
  | nil => exact h
  | cons f rest ih2 => exact ih2 _ (processFrame_pos st f.iw f.ih f.det h)

/-- C10: after any sequence of processed frames, every value stored in the
distance smoothing buffer is strictly positive (and, being a real number,
finite): a raw sample is appended only after passing the positivity guard,
so any median shown in a distance status line is computed over positive
values. -/
theorem dists_window_positive (frames : List FrameInput) (x : ℝ)
    (hx : x ∈ (runState initialState frames).dists) : 0 < x :=
  runState_pos frames initialState (by intro y hy; simp [initialState] at hy) x hx

/-- The concrete landmark frame of the end-to-end scenario: left shoulder
(0.6, 0.5), left elbow (0.6, 0.7), left wrist (0.8, 0.7) (a 90-degree elbow),
right shoulder (0.405, 0.5) (pixel gap 195 at width 1000), nose x 0.5025
(exactly the shoulder midpoint). -/
noncomputable def lm9 : Landmarks :=
  ⟨(0.6, 0.5), (0.6, 0.7), (0.8, 0.7), (0.405, 0.5), (0.5025, 0.3)⟩

/-- The end-to-end scenario frame: 1000 × 1000 pixels, body detected with
landmarks `lm9`. -/
noncomputable def frame9 : FrameInput := ⟨1000, 1000, some lm9⟩

/-- The reflection step of `calculate_angle` leaves 90 degrees unchanged. -/
lemma reflect_90 : (if |(90:ℝ)| > 180 then 360 - |(90:ℝ)| else |(90:ℝ)|) = 90 := by
  rw [abs_of_nonneg (by norm_num : (0:ℝ) ≤ 90), if_neg (by norm_num)]

/-- The elbow angle of the scenario landmarks is exactly 90 degrees. -/
lemma angle9 : calculate_angle ((0.6:ℝ), (0.5:ℝ)) (0.6, 0.7) (0.8, 0.7) = 90 := by
  have h1 : atan2 ((0.7:ℝ) - 0.7) ((0.8:ℝ) - 0.6) = 0 := by
    norm_num
    exact atan2_nonneg_x _ (by norm_num)
  have h2 : atan2 ((0.5:ℝ) - 0.7) ((0.6:ℝ) - 0.6) = -(Real.pi / 2) := by
    norm_num
    exact atan2_neg_y _ (by norm_num)
  simp only [calculate_angle, np_degrees]
  rw [h1, h2, sub_neg_eq_add, zero_add, quarter_turn_degrees, reflect_90]

/-- The estimated distance of the scenario shoulders at frame width 1000 is
exactly 100 cm: the pixel gap is 195 and 650 · 30 / 195 = 100. -/
lemma dist9 :
    estimate_distance_cm ((0.6:ℝ) * 1000, (0.5:ℝ) * 1000)
      ((0.405:ℝ) * 1000, (0.5:ℝ) * 1000) = 100 := by
  simp only [estimate_distance_cm]
  have h : ((0.6:ℝ) * 1000 - 0.405 * 1000) ^ 2 + ((0.5:ℝ) * 1000 - 0.5 * 1000) ^ 2
      = 195 ^ 2 := by norm_num
  rw [h, Real.sqrt_sq (by norm_num : (0:ℝ) ≤ 195)]
  simp only [estimate_distance_from_gap, FOCAL_LENGTH_PX, AVG_SHOULDER_WIDTH_CM]
  rw [if_neg (by norm_num)]
  norm_num

/-- The scenario nose sits exactly at the shoulder midpoint, so the gaze
label is center. -/
lemma gaze9 : center_gaze_label (0.5025:ℝ) 0.6 0.405 = Gaze.center := by
  simp only [center_gaze_label]
  rw [if_neg (by norm_num), if_neg (by norm_num)]

/-- Python `int()` of an integer-valued real is that integer. -/
lemma pyInt_intCast (n : ℤ) : pyInt (n : ℝ) = n := by
  simp only [pyInt]
  split_ifs <;> simp

/-- Truncation of the real 90 is the integer 90. -/
lemma pyInt_90 : pyInt (90:ℝ) = 90 := by
  rw [show (90:ℝ) = ((90:ℤ) : ℝ) by norm_num, pyInt_intCast]

/-- Truncation of the real 100 is the integer 100. -/
lemma pyInt_100 : pyInt (100:ℝ) = 100 := by
  rw [show (100:ℝ) = ((100:ℤ) : ℝ) by norm_num, pyInt_intCast]

/-- One scenario frame applied to constant buffers of length k at most
SMOOTH_N: every buffer becomes the constant buffer of capped length k + 1,
and the produced status is exactly the three expected lines. -/
lemma step9 (k : ℕ) (hk : k ≤ SMOOTH_N) :
    processFrame ⟨List.replicate k 90, List.replicate k 100, List.replicate k Gaze.center⟩
        1000 1000 (some lm9) =
      (⟨List.replicate (min (k + 1) SMOOTH_N) 90,
        List.replicate (min (k + 1) SMOOTH_N) 100,
        List.replicate (min (k + 1) SMOOTH_N) Gaze.center⟩,
       [Msg.elbowOK 90, Msg.distanceOK 100, Msg.looking Gaze.center]) := by
  obtain ⟨m, hm⟩ : ∃ m, min (k + 1) SMOOTH_N = m + 1 := by
    refine ⟨min (k + 1) SMOOTH_N - 1, ?_⟩
    have : 0 < min (k + 1) SMOOTH_N := by
      simp only [SMOOTH_N]
      omega
    omega
  simp only [processFrame, lm9]
  rw [angle9, pushWindow_replicate k (90:ℝ) hk, hm,
    median_replicate (m + 1) (by omega) 90,
    if_pos (by norm_num [ELBOW_MIN, ELBOW_MAX] : ELBOW_MIN ≤ (90:ℝ) ∧ (90:ℝ) ≤ ELBOW_MAX),
    pyInt_90, dist9]
  simp only [distStep]
  rw [if_neg (by norm_num : ¬(100:ℝ) ≤ 0), pushWindow_replicate k (100:ℝ) hk, hm,
    median_replicate (m + 1) (by omega) 100,
    if_pos (by norm_num [DIST_MIN_CM, DIST_MAX_CM] :
      DIST_MIN_CM ≤ (100:ℝ) ∧ (100:ℝ) ≤ DIST_MAX_CM),
    pyInt_100, gaze9, pushWindow_replicate k Gaze.center hk, hm, vote_replicate m Gaze.center]

/-- Processing a frame appended at the end of a run is one step after the
run. -/
lemma runState_append (st : WorkerState) (l : List FrameInput) (f : FrameInput) :
    runState st (l ++ [f]) = (processFrame (runState st l) f.iw f.ih f.det).1 := by
  induction l generalizing st with
  | nil => rfl
  | cons g t ih =>
    simp only [List.cons_append, runState]
    exact ih _

/-- After n at most SMOOTH_N identical scenario frames from the empty
buffers, every buffer is the constant buffer of length n. -/
lemma run9 (n : ℕ) (hn : n ≤ SMOOTH_N) :
    runState initialState (List.replicate n frame9) =
      ⟨List.replicate n 90, List.replicate n 100, List.replicate n Gaze.center⟩ := by
  induction n with
  | zero => rfl
  | succ m ih =>
    rw [List.replicate_succ', runState_append, ih (by omega)]
    simp only [frame9]
    rw [step9 m (by omega), min_eq_left hn]

/-- C9: after seven identical scenario frames (elbow angle 90 degrees,
shoulder pixel gap 195 at width 1000 giving exactly 100 cm, nose exactly
centered), the eighth identical frame produces exactly the three status
lines elbow-OK 90, distance-OK 100, looking-center, in that order. -/
theorem end_to_end_eight_frames :
    (processFrame (runState initialState (List.replicate 7 frame9))
        1000 1000 (some lm9)).2 =
      [Msg.elbowOK 90, Msg.distanceOK 100, Msg.looking Gaze.center] := by
  rw [show (7:ℕ) = SMOOTH_N from rfl, run9 SMOOTH_N le_rfl, step9 SMOOTH_N le_rfl]

/-- C6: in every successfully-detected frame, let z be the raw distance
estimate from the scaled shoulder landmarks.  A non-positive z (the undefined
sentinel; infinities do not exist among the reals) yields the re-center line
in the second status position and leaves the distance buffer untouched; a
positive z is pushed and the median zsm of the new window is classified:
inside [DIST_MIN_CM, DIST_MAX_CM] as distance-OK, below as too-close, above
as too-far, each showing `pyInt zsm`; and for nonnegative values `pyInt` is
truncation, the unique integer with pyInt x ≤ x < pyInt x + 1 (not
rounding). -/
theorem distance_classification (st : WorkerState) (iw ih : ℝ) (lm : Landmarks) :
    (estimate_distance_cm (lm.leftShoulder.1 * iw, lm.leftShoulder.2 * ih)
        (lm.rightShoulder.1 * iw, lm.rightShoulder.2 * ih) ≤ 0 →
       ((processFrame st iw ih (some lm)).2[1]? = some Msg.recenterDistance ∧
        (processFrame st iw ih (some lm)).1.dists = st.dists)) ∧
    (∀ z : ℝ,
       z = estimate_distance_cm (lm.leftShoulder.1 * iw, lm.leftShoulder.2 * ih)
             (lm.rightShoulder.1 * iw, lm.rightShoulder.2 * ih) →
       0 < z →
       ∀ zsm : ℝ, zsm = median (pushWindow st.dists z) →
         ((DIST_MIN_CM ≤ zsm ∧ zsm ≤ DIST_MAX_CM →
            (processFrame st iw ih (some lm)).2[1]? = some (Msg.distanceOK (pyInt zsm))) ∧
          (zsm < DIST_MIN_CM →
            (processFrame st iw ih (some lm)).2[1]? = some (Msg.tooClose (pyInt zsm))) ∧
          (DIST_MAX_CM < zsm →
            (processFrame st iw ih (some lm)).2[1]? = some (Msg.tooFar (pyInt zsm))))) ∧
    (∀ x : ℝ, 0 ≤ x → ((pyInt x : ℝ) ≤ x ∧ x < (pyInt x : ℝ) + 1)) := by
  have hmsg : (processFrame st iw ih (some lm)).2[1]? =
      some (distStep st.dists
        (estimate_distance_cm (lm.leftShoulder.1 * iw, lm.leftShoulder.2 * ih)
          (lm.rightShoulder.1 * iw, lm.rightShoulder.2 * ih))).2 := rfl
  have hdists : (processFrame st iw ih (some lm)).1.dists =
      (distStep st.dists
        (estimate_distance_cm (lm.leftShoulder.1 * iw, lm.leftShoulder.2 * ih)
          (lm.rightShoulder.1 * iw, lm.rightShoulder.2 * ih))).1 := rfl
  refine ⟨?_, ?_, ?_⟩
  · intro hz
    rw [hmsg, hdists]
    simp only [distStep]
    rw [if_pos hz]
    exact ⟨rfl, rfl⟩
  · intro z hz hzpos zsm hzsm
    subst hz
    rw [hmsg]
    simp only [distStep]
    rw [if_neg (not_le.mpr hzpos), ← hzsm]
    refine ⟨?_, ?_, ?_⟩
    · intro hband
      rw [if_pos hband]
    · intro hlt
      rw [if_neg (by rintro ⟨h1, _⟩; exact absurd hlt (not_lt.mpr h1)), if_pos hlt]
    · intro hgt
      have h70 : DIST_MIN_CM ≤ zsm := by
        have : DIST_MIN_CM ≤ DIST_MAX_CM := by norm_num [DIST_MIN_CM, DIST_MAX_CM]
        linarith
      rw [if_neg (by rintro ⟨_, h2⟩; exact absurd hgt (not_lt.mpr h2)),
        if_neg (not_lt.mpr h70)]
  · intro x hx
    simp only [pyInt]
    rw [if_pos hx]
    exact ⟨Int.floor_le x, Int.lt_floor_add_one x⟩

/-- Witness for C6 at the concrete scenario frame: from empty buffers the raw
estimate is exactly 100, the window median is 100, and the second status line
is distance-OK 100. -/
theorem distance_classification_witness :
    (processFrame initialState 1000 1000 (some lm9)).2[1]? =
      some (Msg.distanceOK 100) := by
  have hz : (100:ℝ) =
      estimate_distance_cm (lm9.leftShoulder.1 * 1000, lm9.leftShoulder.2 * 1000)
        (lm9.rightShoulder.1 * 1000, lm9.rightShoulder.2 * 1000) := by
    simp only [lm9]
    exact dist9.symm
  have hzsm : (100:ℝ) = median (pushWindow initialState.dists 100) := by
    rw [show pushWindow initialState.dists (100:ℝ) = [100] from rfl,
      show ([100] : List ℝ) = List.replicate 1 100 from rfl,
      median_replicate 1 (by norm_num) 100]
  have h := ((distance_classification initialState 1000 1000 lm9).2.1
      100 hz (by norm_num) 100 hzsm).1
      (by norm_num [DIST_MIN_CM, DIST_MAX_CM])
  rw [h, pyInt_100]

/-- Witness for C10 at the concrete scenario frame: after one frame the
distance buffer contains 100, which is strictly positive. -/
theorem dists_window_positive_witness :
    (100:ℝ) ∈ (runState initialState [frame9]).dists ∧ (0:ℝ) < 100 := by
  have hmem : (100:ℝ) ∈ (runState initialState [frame9]).dists := by
    rw [show ([frame9]) = List.replicate 1 frame9 from rfl,
      run9 1 (by norm_num [SMOOTH_N])]
    simp
  exact ⟨hmem, dists_window_positive [frame9] 100 hmem⟩

end SitSmartCoach
